import Mathlib

/-!
# Verification of the ccu session-analysis core

A shallow embedding of the session-window analysis core of `sammcj/ccu`
(packages `internal/analysis`, `internal/models`, `internal/data`,
`internal/pricing`, and the staleness clamp of `internal/api`), together
with proofs of its specified properties.

Modelling conventions:
* `time.Time` values are modelled as timestamps. Integer-second
  timestamps (`Int`) are used where the code only compares and subtracts
  times; rational timestamps (`Rat`) are used where fractional seconds
  can arise (depletion predictions, staleness thresholds). Go durations
  are seconds: `time.Hour = 3600`, `SessionDuration = 18000`.
* Go `float64` arithmetic on costs, percentages and proportions is
  modelled exactly over `Rat`. None of the verified properties depends
  on floating-point rounding.
* The zero `time.Time{}` sentinel returned by the depletion predictors
  is modelled as `none : Option _`.
* `SessionBlock.ID` (a formatted string) and `PerModelStats` are omitted:
  no verified property reads them. All other fields are carried.
-/

/-- `models.UsageEntry`: a single API call record. The dedup fields
`MessageID`/`RequestID` are irrelevant to the analysis core and omitted. -/
structure UsageEntry where
  timestamp : Int
  inputTokens : Int
  outputTokens : Int
  cacheCreationTokens : Int
  cacheReadTokens : Int
  costUSD : Rat
  model : String
  deriving DecidableEq, Repr

/-- `(*UsageEntry).TotalTokens`: sum of all four token counts. -/
def UsageEntry.TotalTokens (e : UsageEntry) : Int :=
  e.inputTokens + e.outputTokens + e.cacheCreationTokens + e.cacheReadTokens

/-- `(*UsageEntry).DisplayTokens`: input + output only. -/
def UsageEntry.DisplayTokens (e : UsageEntry) : Int :=
  e.inputTokens + e.outputTokens

/-- `models.SessionBlock`: a 5-hour usage window. -/
structure SessionBlock where
  startTime : Int
  endTime : Int
  actualEndTime : Option Int
  entries : List UsageEntry
  totalTokens : Int
  displayTokens : Int
  costUSD : Rat
  isActive : Bool
  isGap : Bool
  burnRate : Rat
  costBurnRate : Rat
  messageCount : Nat
  deriving DecidableEq, Repr

/-- `(*SessionBlock).Duration`. -/
def SessionBlock.Duration (sb : SessionBlock) : Int :=
  match sb.actualEndTime with
  | some a => a - sb.startTime
  | none => sb.endTime - sb.startTime

/-- `(*SessionBlock).ElapsedDuration`. -/
def SessionBlock.ElapsedDuration (sb : SessionBlock) (now : Int) : Int :=
  if sb.endTime < now then sb.Duration
  else if now < sb.startTime then 0
  else now - sb.startTime

/-- `(*SessionBlock).AddEntry` (the per-model stats update is omitted
with the `PerModelStats` field). -/
def SessionBlock.AddEntry (sb : SessionBlock) (e : UsageEntry) : SessionBlock :=
  { sb with
    entries := sb.entries ++ [e]
    totalTokens := sb.totalTokens + e.TotalTokens
    displayTokens := sb.displayTokens + e.DisplayTokens
    messageCount := sb.messageCount + 1 }

/-- `analysis.SessionDuration`: the 5-hour session window, in seconds. -/
def SessionDuration : Int := 5 * 3600

/-- `analysis.GapThreshold`. -/
def GapThreshold : Int := SessionDuration

/-- `analysis.newSessionBlock`: start a block at the entry's timestamp
rounded down to the hour (`time.Time.Truncate` rounds down, i.e. floor
division by 3600). -/
def newSessionBlock (startTime : Int) : SessionBlock :=
  let roundedStart := 3600 * (Int.fdiv startTime 3600)
  { startTime := roundedStart
    endTime := roundedStart + SessionDuration
    actualEndTime := none
    entries := []
    totalTokens := 0
    displayTokens := 0
    costUSD := 0
    isActive := false
    isGap := false
    burnRate := 0
    costBurnRate := 0
    messageCount := 0 }

/-- `analysis.createGapBlock`. -/
def createGapBlock (s e : Int) : SessionBlock :=
  { startTime := s
    endTime := e
    actualEndTime := none
    entries := []
    totalTokens := 0
    displayTokens := 0
    costUSD := 0
    isActive := false
    isGap := true
    burnRate := 0
    costBurnRate := 0
    messageCount := 0 }

/-- The loop body of `analysis.CreateSessionBlocks`, with the current
open block as explicit state. On an entry past the current block's end
the code first appends a gap block (when the silence strictly exceeds
`GapThreshold`), then the finalized current block, then continues with a
fresh block seeded with the entry. -/
def createBlocksAux (current : SessionBlock) : List UsageEntry → List SessionBlock
  | [] => [current]
  | e :: rest =>
    if e.timestamp < current.endTime then
      createBlocksAux (current.AddEntry e) rest
    else
      (if GapThreshold < e.timestamp - current.endTime then
        [createGapBlock current.endTime e.timestamp]
      else []) ++
      current :: createBlocksAux ((newSessionBlock e.timestamp).AddEntry e) rest

/-- `analysis.CreateSessionBlocks`: transform entries into 5-hour session
blocks with gap markers. -/
def CreateSessionBlocks : List UsageEntry → List SessionBlock
  | [] => []
  | e :: rest => createBlocksAux ((newSessionBlock e.timestamp).AddEntry e) rest

/-- `analysis.MarkActiveSessions`. -/
def MarkActiveSessions (blocks : List SessionBlock) (now : Int) : List SessionBlock :=
  blocks.map fun b =>
    if b.isGap then b
    else
      let b' := { b with isActive := decide (b.startTime < now ∧ now < b.endTime) }
      if ¬b'.isActive ∧ b'.actualEndTime = none ∧ b'.entries ≠ [] then
        match b'.entries.getLast? with
        | some lastEntry => { b' with actualEndTime := some lastEntry.timestamp }
        | none => b'
      else b'

/-- The per-block contribution of the loop body of
`analysis.CalculateBurnRate` (tokens attributed to the trailing hour). -/
def burnRateContribution (b : SessionBlock) (currentTime : Int) : Rat :=
  if b.isGap then 0
  else
    let oneHourAgo := currentTime - 3600
    let sessionEnd : Int :=
      if ¬b.isActive ∧ b.actualEndTime ≠ none then b.actualEndTime.getD currentTime
      else if ¬b.isActive then b.endTime
      else currentTime
    if sessionEnd < oneHourAgo then 0
    else if currentTime < b.startTime then 0
    else
      let sessionStartInHour := if b.startTime < oneHourAgo then oneHourAgo else b.startTime
      let sessionEndInHour := if currentTime < sessionEnd then currentTime else sessionEnd
      if sessionEndInHour < sessionStartInHour then 0
      else
        let totalSessionDuration : Rat := ((sessionEnd - b.startTime : Int) : Rat) / 60
        let hourDuration : Rat := ((sessionEndInHour - sessionStartInHour : Int) : Rat) / 60
        if 0 < totalSessionDuration then
          (hourDuration / totalSessionDuration) * (b.displayTokens : Rat)
        else 0

/-- `analysis.CalculateBurnRate`: proportional-overlap trailing-hour
token velocity (tokens per minute). -/
def CalculateBurnRate (blocks : List SessionBlock) (currentTime : Int) : Rat :=
  ((blocks.map fun b => burnRateContribution b currentTime).sum) / 60

/-- Reference per-block term, written from the spec's words (§4.3): an
`effectiveEnd`, three skip conditions, and the interval-overlap formula
`max 0 (min effectiveEnd now - max start (now - L))`. -/
def burnRateRefContribution (b : SessionBlock) (now : Int) : Rat :=
  if b.isGap then 0
  else
    let effectiveEnd : Int :=
      if ¬b.isActive ∧ b.actualEndTime ≠ none then b.actualEndTime.getD now
      else if b.isActive then now
      else b.endTime
    let totalWindowMinutes : Rat := ((effectiveEnd - b.startTime : Int) : Rat) / 60
    let overlapMinutes : Rat :=
      ((max 0 (min effectiveEnd now - max b.startTime (now - 3600)) : Int) : Rat) / 60
    if effectiveEnd < now - 3600 ∨ now < b.startTime ∨ totalWindowMinutes ≤ 0 then 0
    else (overlapMinutes / totalWindowMinutes) * (b.displayTokens : Rat)

/-- Reference burn rate, written from the spec's words (§4.3): sum of the
qualifying windows' proportional token shares, divided by 60. -/
def burnRateRef (blocks : List SessionBlock) (now : Int) : Rat :=
  ((blocks.map fun b => burnRateRefContribution b now).sum) / 60

/-- Substring test, used by `models.NormaliseModelName`
(`strings.Contains`). -/
def strContains (s sub : String) : Bool := (s.splitOn sub).length != 1

/-- `models.NormaliseModelName`: map model-name variants onto the pricing
table's keys. -/
def NormaliseModelName (model : String) : String :=
  let modelLower := model.toLower
  if strContains modelLower "opus" then
    if strContains modelLower "4-5" || strContains modelLower "4.5" then "claude-opus-4-5"
    else if strContains modelLower "3" then "claude-3-opus"
    else "claude-opus-4"
  else if strContains modelLower "sonnet" then
    if strContains modelLower "4-5" || strContains modelLower "4.5" then "claude-sonnet-4-5"
    else if strContains modelLower "3-5" || strContains modelLower "3.5" then "claude-3-5-sonnet"
    else if strContains modelLower "4" then "claude-sonnet-4"
    else "claude-3-sonnet"
  else if strContains modelLower "haiku" then
    if strContains modelLower "4-5" || strContains modelLower "4.5" then "claude-haiku-4-5"
    else if strContains modelLower "3-5" || strContains modelLower "3.5" then "claude-3-5-haiku"
    else "claude-3-haiku"
  else model

/-- `pricing.Pricing`: per-million-token cost. -/
structure Pricing where
  input : Rat
  output : Rat
  cacheCreation : Rat
  cacheRead : Rat
  deriving DecidableEq, Repr

/-- `pricing.ModelPricing` (per 1M tokens, USD). -/
def ModelPricing (model : String) : Option Pricing :=
  if model = "claude-opus-4-5" then some ⟨5, 25, 25/4, 1/2⟩
  else if model = "claude-sonnet-4-5" then some ⟨3, 15, 15/4, 3/10⟩
  else if model = "claude-haiku-4-5" then some ⟨1, 5, 5/4, 1/10⟩
  else if model = "claude-opus-4" then some ⟨15, 75, 75/4, 3/2⟩
  else if model = "claude-3-opus" then some ⟨15, 75, 75/4, 3/2⟩
  else if model = "claude-3-sonnet" then some ⟨3, 15, 15/4, 3/10⟩
  else if model = "claude-3-5-sonnet" then some ⟨3, 15, 15/4, 3/10⟩
  else if model = "claude-sonnet-4" then some ⟨3, 15, 15/4, 3/10⟩
  else if model = "claude-3-haiku" then some ⟨1/4, 5/4, 3/10, 3/100⟩
  else if model = "claude-3-5-haiku" then some ⟨4/5, 4, 1, 2/25⟩
  else none

/-- `pricing.CalculateCost`: cost of one usage entry, with Sonnet-4
pricing as the fallback for unknown models. -/
def CalculateCost (entry : UsageEntry) : Rat :=
  let normalisedModel := NormaliseModelName entry.model
  let pricing := (ModelPricing normalisedModel).getD ⟨3, 15, 15/4, 3/10⟩
  (entry.inputTokens : Rat) * pricing.input / 1000000 +
  (entry.outputTokens : Rat) * pricing.output / 1000000 +
  (entry.cacheCreationTokens : Rat) * pricing.cacheCreation / 1000000 +
  (entry.cacheReadTokens : Rat) * pricing.cacheRead / 1000000

/-- `analysis.CalculateCostBurnRate`: USD per minute over the session's
elapsed duration. -/
def CalculateCostBurnRate (b : SessionBlock) (now : Int) : Rat :=
  let elapsed : Rat := ((b.ElapsedDuration now : Int) : Rat) / 60
  if elapsed = 0 then 0
  else
    let totalCost :=
      (b.entries.map fun e => if 0 < e.costUSD then e.costUSD else CalculateCost e).sum
    totalCost / elapsed

/-- `analysis.CalculateSessionCost`. -/
def CalculateSessionCost (b : SessionBlock) : Rat :=
  (b.entries.map fun e => if 0 < e.costUSD then e.costUSD else CalculateCost e).sum

/-- `analysis.UpdateSessionCosts`. The Go function calls `time.Now()`
internally when computing `CostBurnRate`; that internal wall-clock read
is made explicit here as the `wallClock` parameter. -/
def UpdateSessionCosts (blocks : List SessionBlock) (wallClock : Int) : List SessionBlock :=
  blocks.map fun b =>
    if ¬b.isGap then
      { b with costUSD := CalculateSessionCost b
               costBurnRate := CalculateCostBurnRate { b with costUSD := CalculateSessionCost b } wallClock }
    else b

/-- `analysis.PredictCostDepletion`. `time.Duration(minutesToDepletion)`
truncates the (positive) float to a whole number of minutes, so the
returned instant is `now + 60 * floor(remaining / rate)` seconds. The
zero-time sentinel is `none`. -/
def PredictCostDepletion (costBurnRate costRemaining : Rat) (currentTime : Rat) : Option Rat :=
  if costBurnRate ≤ 0 ∨ costRemaining ≤ 0 then none
  else some (currentTime + 60 * ((⌊costRemaining / costBurnRate⌋ : Int) : Rat))

/-- The depletion instant as the spec's words state it (§4.4 and C5):
`now + remaining/rate` minutes, with no truncation. -/
def predictCostDepletionSpec (costBurnRate costRemaining : Rat) (currentTime : Rat) : Option Rat :=
  if costBurnRate ≤ 0 ∨ costRemaining ≤ 0 then none
  else some (currentTime + 60 * (costRemaining / costBurnRate))

/-- `analysis.WeeklyPrediction`. The zero `time.Time` in `DepletionTime`
and `ResetTime` is modelled as `none`. -/
structure WeeklyPrediction where
  depletionTime : Option Rat
  resetTime : Option Rat
  willHitLimit : Bool
  utilisation : Rat
  deriving DecidableEq, Repr

/-- The body of `analysis.PredictWeeklyDepletion` after a successful
`ParseResetTime`. The utilisation and the parsed `SevenDay.ResetsAt` of
the OAuth data are passed directly; the two ignored `float64` parameters
of the Go function are dropped. -/
def predictWeeklyDepletionAt (utilisation resetTime now : Rat) : WeeklyPrediction :=
  if 100 ≤ utilisation then ⟨some now, some resetTime, true, utilisation⟩
  else
    let weekStart := resetTime - 7 * 24 * 3600
    let hoursElapsed := (now - weekStart) / 3600
    if hoursElapsed ≤ 0 then ⟨none, some resetTime, false, utilisation⟩
    else if hoursElapsed < 24 then ⟨none, some resetTime, false, utilisation⟩
    else
      let weeklyBurnRatePerHour := utilisation / hoursElapsed
      if weeklyBurnRatePerHour ≤ 0 then ⟨none, some resetTime, false, utilisation⟩
      else
        let remainingPercent := 100 - utilisation
        let hoursToDepletion := remainingPercent / weeklyBurnRatePerHour
        let depletionTime := now + hoursToDepletion * 3600
        ⟨some depletionTime, some resetTime, decide (depletionTime < resetTime), utilisation⟩

/-- `analysis.PredictWeeklyDepletion` (see `predictWeeklyDepletionAt` for
the successfully-parsed branch). -/
def PredictWeeklyDepletion (utilisation : Rat) (resetsAt : Option Rat) (now : Rat) :
    WeeklyPrediction :=
  match resetsAt with
  | none => ⟨none, none, false, utilisation⟩
  | some resetTime => predictWeeklyDepletionAt utilisation resetTime now

/-- The staleness clamp of `api.buildSessionSection` (handler.go): when
the OAuth `resetsAt` is not after `now` the window has rolled over, and a
reported percentage above twice the maximum plausible one for the elapsed
time in the new window is zeroed. `resetTime = none` models a
`ParseResetTime` failure (no clamping). -/
def clampStaleUtilisation (utilisationPct : Rat) (resetTime : Option Rat) (now : Rat) : Rat :=
  match resetTime with
  | none => utilisationPct
  | some rt =>
    if ¬now < rt then
      let elapsed := now - rt
      let maxReasonable0 := elapsed / 3600 / 5 * 100
      let maxReasonable := if maxReasonable0 < 1 then 1 else maxReasonable0
      if maxReasonable * 2 < utilisationPct then 0 else utilisationPct
    else utilisationPct

/-- `analysis.P90Config`. -/
structure P90Config where
  commonLimits : List Int
  limitThreshold : Rat
  defaultMinLimit : Int
  deriving DecidableEq, Repr

/-- `analysis.DefaultP90Config`: Pro/Max5/Max20 ceilings, 95% threshold,
Pro ceiling as the minimum. -/
def DefaultP90Config : P90Config :=
  { commonLimits := [19000, 88000, 220000]
    limitThreshold := 95 / 100
    defaultMinLimit := 19000 }

/-- `analysis.quantile`: nearest-rank quantile on the ascending-sorted
data. `sort.Ints` sorts ascending; since `≤` on `Int` is a total order
with antisymmetry, every correct ascending sort produces the same list,
modelled here with `insertionSort`. `int(float64(n-1)*q)` truncates;
after the clamp to `[0, n-1]` this agrees with the floor used here. -/
def quantile (data : List Int) (q : Rat) : Int :=
  if data = [] then 0
  else
    let sorted := List.insertionSort (· ≤ ·) data
    let index := ⌊(((sorted.length : Int) - 1 : Int) : Rat) * q⌋
    let index := if index < 0 then 0 else index
    let index := if (sorted.length : Int) ≤ index then (sorted.length : Int) - 1 else index
    sorted.getD index.toNat 0

/-- `analysis.CalculateP90Limit`: P90 of the completed windows that hit a
known ceiling, falling back to all completed windows with positive
totals, floored at the configured minimum. -/
def CalculateP90Limit (blocks : List SessionBlock) (config : P90Config) : Int :=
  let step1 := blocks.filterMap fun b =>
    if b.isGap ∨ b.isActive then none
    else if config.commonLimits.any fun limit =>
        (limit : Rat) * config.limitThreshold ≤ (b.totalTokens : Rat) then
      some b.totalTokens
    else none
  let hitSessions :=
    if step1 = [] then
      blocks.filterMap fun b =>
        if ¬b.isGap ∧ ¬b.isActive ∧ 0 < b.totalTokens then some b.totalTokens else none
    else step1
  if hitSessions = [] then config.defaultMinLimit
  else
    let p90 := quantile hitSessions (9 / 10)
    if p90 < config.defaultMinLimit then config.defaultMinLimit else p90

/-- The P90 computation as claim C7 words it: the fallback set is the
`totalTokens` of **all** completed windows, with no positivity filter.
Identical to `CalculateP90Limit` otherwise. -/
def calculateP90LimitSpec (blocks : List SessionBlock) (config : P90Config) : Int :=
  let step1 := blocks.filterMap fun b =>
    if b.isGap ∨ b.isActive then none
    else if config.commonLimits.any fun limit =>
        (limit : Rat) * config.limitThreshold ≤ (b.totalTokens : Rat) then
      some b.totalTokens
    else none
  let hitSessions :=
    if step1 = [] then
      blocks.filterMap fun b =>
        if ¬b.isGap ∧ ¬b.isActive then some b.totalTokens else none
    else step1
  if hitSessions = [] then config.defaultMinLimit
  else
    let p90 := quantile hitSessions (9 / 10)
    if p90 < config.defaultMinLimit then config.defaultMinLimit else p90

/-- `models.Limits`. -/
structure Limits where
  planName : String
  tokenLimit : Int
  costLimitUSD : Rat
  messageLimit : Int
  deriving DecidableEq, Repr

/-- The Pro entry of `models.PredefinedLimits`. -/
def proLimits : Limits := ⟨"Pro", 0, 18, 250⟩

/-- `models.PredefinedLimits` as a lookup (`none` = key absent). -/
def PredefinedLimits (plan : String) : Option Limits :=
  if plan = "pro" then some proLimits
  else if plan = "max5" then some ⟨"Max5", 0, 35, 1000⟩
  else if plan = "max20" then some ⟨"Max20", 0, 140, 2000⟩
  else none

/-- `models.GetLimits`: predefined limits, defaulting to Pro. -/
def GetLimits (plan : String) : Limits :=
  match PredefinedLimits plan with
  | some limits => limits
  | none => proLimits

/-- `analysis.ShouldSwitchToCustom`: true when more than 30% of the
completed windows exceed the current plan's `TokenLimit` (compared
directly, whatever its value). -/
def ShouldSwitchToCustom (blocks : List SessionBlock) (currentPlan : String) : Bool :=
  if currentPlan = "custom" then false
  else
    let limits := GetLimits currentPlan
    let completed := blocks.filter fun b => ¬b.isGap ∧ ¬b.isActive
    let exceedCount := (completed.filter fun b => limits.tokenLimit < b.totalTokens).length
    let totalSessions := completed.length
    decide (0 < totalSessions ∧ (3 : Rat) / 10 < (exceedCount : Rat) / (totalSessions : Rat))

/-- The tier-switch check as claim C8 words it: a token ceiling of 0
means unbounded and is never exceeded. -/
def shouldSwitchToCustomSpec (blocks : List SessionBlock) (currentPlan : String) : Bool :=
  let limits := GetLimits currentPlan
  let completed := blocks.filter fun b => ¬b.isGap ∧ ¬b.isActive
  let exceedCount := (completed.filter fun b =>
    limits.tokenLimit ≠ 0 ∧ limits.tokenLimit < b.totalTokens).length
  let totalSessions := completed.length
  decide (0 < totalSessions ∧ (3 : Rat) / 10 < (exceedCount : Rat) / (totalSessions : Rat))

/-- The tier-switch check as the amended claim C8 words it: flag when the
current plan is not already custom and strictly more than 30% of the
completed (non-gap, non-active) windows have `totalTokens` strictly
greater than the plan's token ceiling, compared directly (a ceiling of 0
is exceeded by any positive total). -/
def shouldSwitchToCustomAmended (blocks : List SessionBlock) (currentPlan : String) : Bool :=
  let completed := blocks.filter fun b => ¬b.isGap ∧ ¬b.isActive
  let exceeding := completed.filter fun b => (GetLimits currentPlan).tokenLimit < b.totalTokens
  decide (currentPlan ≠ "custom") &&
    decide (0 < completed.length ∧
      (3 : Rat) / 10 < (exceeding.length : Rat) / (completed.length : Rat))

/-- An entry at time `t` with the given display tokens, used as a
concrete input in several theorems. -/
def testEntry (t : Int) (tok : Int) : UsageEntry :=
  { timestamp := t, inputTokens := tok, outputTokens := 0,
    cacheCreationTokens := 0, cacheReadTokens := 0, costUSD := 0,
    model := "claude-sonnet-4-5" }

/-- A completed (non-gap, non-active) block with the given total token
count, used as a concrete input in several theorems. -/
def completedTestBlock (tok : Int) : SessionBlock :=
  { startTime := 0, endTime := 18000, actualEndTime := some 18000,
    entries := [], totalTokens := tok, displayTokens := tok, costUSD := 0,
    isActive := false, isGap := false, burnRate := 0, costBurnRate := 0,
    messageCount := 1 }

/-- The usage entry of the C9 failing input: one call costing 6 USD at
time 0. -/
def c9entry : UsageEntry :=
  { timestamp := 0, inputTokens := 0, outputTokens := 0, cacheCreationTokens := 0,
    cacheReadTokens := 0, costUSD := 6, model := "claude-sonnet-4-5" }

/-- The session block of the C9 failing input: the active window
[0, 18000) holding `c9entry`. -/
def c9block : SessionBlock :=
  { startTime := 0, endTime := 18000, actualEndTime := none, entries := [c9entry],
    totalTokens := 0, displayTokens := 0, costUSD := 0, isActive := true, isGap := false,
    burnRate := 0, costBurnRate := 0, messageCount := 1 }

/-- The active window of C4's concrete scenario: started 30 minutes
before `now = 36000` with 3000 display tokens. -/
def exampleBurnBlock : SessionBlock :=
  { startTime := 34200, endTime := 52200, actualEndTime := none, entries := [],
    totalTokens := 3000, displayTokens := 3000, costUSD := 0, isActive := true,
    isGap := false, burnRate := 0, costBurnRate := 0, messageCount := 1 }

/-- The non-gap windows of a block list, in their emitted order. -/
def sessionsOnly (blocks : List SessionBlock) : List SessionBlock :=
  blocks.filter fun b => ¬b.isGap

/-- Reference reconstruction from the spec's words (§4.1/C2): walking the
chronological non-gap windows, a gap window spanning
`[window.end, nextEvent.timestamp)` is emitted iff the next window's
first event (the event that closed the current window) lies strictly
more than `GapThreshold` past the current window's end. The gap marker
is emitted immediately before the window it follows, matching the Go
append order. -/
def interleaveGaps : List SessionBlock → List SessionBlock
  | [] => []
  | [b] => [b]
  | b :: b' :: rest =>
    (match b'.entries.head? with
     | some e =>
       if GapThreshold < e.timestamp - b.endTime then
         [createGapBlock b.endTime e.timestamp]
       else []
     | none => []) ++ b :: interleaveGaps (b' :: rest)

/-- The input events reassembled from the non-gap windows, in order. -/
def nonGapEntries (blocks : List SessionBlock) : List UsageEntry :=
  ((blocks.filter fun b => ¬b.isGap).map SessionBlock.entries).join

/-- C10: `GetLimits` is total — every plan name outside the predefined
keys maps to the Pro limits (cost ceiling 18.0, message ceiling 250,
token ceiling 0). -/
theorem getLimits_total_defaults_to_pro (plan : String)
    (h1 : plan ≠ "pro") (h2 : plan ≠ "max5") (h3 : plan ≠ "max20") :
    GetLimits plan = proLimits ∧ proLimits.costLimitUSD = 18 ∧
      proLimits.messageLimit = 250 ∧ proLimits.tokenLimit = 0 := by
  refine ⟨?_, rfl, rfl, rfl⟩
  simp only [GetLimits, PredefinedLimits, if_neg h1, if_neg h2, if_neg h3]

/-- Witness for C10 at the unknown plan name `"team"`. -/
theorem getLimits_total_defaults_to_pro_witness :
    GetLimits "team" = proLimits ∧ proLimits.costLimitUSD = 18 ∧
      proLimits.messageLimit = 250 ∧ proLimits.tokenLimit = 0 :=
  getLimits_total_defaults_to_pro "team" (by decide) (by decide) (by decide)

/-- C5 counterexample: the claim says the depletion instant is
`now + (remaining ÷ rate)` minutes, but the code truncates the quotient
to whole minutes. At rate 2 USD/min and 3 USD remaining the code returns
`now + 1` minute, not `now + 1.5` minutes. -/
theorem predictCostDepletion_counterexample :
    PredictCostDepletion 2 3 0 = some 60 ∧
      predictCostDepletionSpec 2 3 0 = some 90 ∧
      some (60 : Rat) ≠ some (90 : Rat) := by
  refine ⟨?_, ?_, by norm_num⟩ <;>
    norm_num [PredictCostDepletion, predictCostDepletionSpec]

/-- C5 (amended): `PredictCostDepletion` returns the undefined sentinel
iff `rate ≤ 0` or `remaining ≤ 0`; otherwise it returns
`now + ⌊remaining ÷ rate⌋` whole minutes (the fractional minute is
truncated), and at rate 0.10 USD/min with 5.00 USD remaining this is
exactly `now + 50` minutes. -/
theorem predictCostDepletion_characterisation (rate remaining now : Rat) :
    (PredictCostDepletion rate remaining now = none ↔ rate ≤ 0 ∨ remaining ≤ 0) ∧
      (0 < rate → 0 < remaining →
        PredictCostDepletion rate remaining now =
          some (now + 60 * ((⌊remaining / rate⌋ : Int) : Rat))) ∧
      PredictCostDepletion (1 / 10) 5 now = some (now + 3000) := by
  refine ⟨?_, ?_, ?_⟩
  · unfold PredictCostDepletion
    split_ifs with h
    · simp [h]
    · simp [h]
  · intro h1 h2
    unfold PredictCostDepletion
    rw [if_neg]
    push_neg
    exact ⟨h1, h2⟩
  · unfold PredictCostDepletion
    rw [if_neg (by push_neg; norm_num)]
    rw [show (5 : Rat) / (1 / 10) = 50 by norm_num]
    norm_num

/-- Witness for C5's amended theorem at rate 1, remaining 1, now 0. -/
theorem predictCostDepletion_characterisation_witness :
    PredictCostDepletion 1 1 0 = some (0 + 60 * ((⌊(1 : Rat) / 1⌋ : Int) : Rat)) :=
  (predictCostDepletion_characterisation 1 1 0).2.1 (by norm_num) (by norm_num)

/-- C1 counterexample: at utilisation 100 with only 1 hour elapsed in the
weekly window (reset at t = 604800, now = 3600, window start t = 0), the
code does not return the undefined result — the `utilisation ≥ 100`
short-circuit fires first and yields depletion = now, willHitLimit true. -/
theorem predictWeeklyDepletion_counterexample :
    ((3600 : Rat) - (604800 - 7 * 24 * 3600) < 24 * 3600) ∧
      (PredictWeeklyDepletion 100 (some 604800) 3600).willHitLimit = true ∧
      (PredictWeeklyDepletion 100 (some 604800) 3600).depletionTime = some 3600 := by
  refine ⟨by norm_num, ?_, ?_⟩ <;>
    norm_num [PredictWeeklyDepletion, predictWeeklyDepletionAt]

/-- C1 (amended): for utilisation below 100, less than 24 hours elapsed
since the weekly window start yields the undefined result; utilisation at
or above 100 short-circuits before the elapsed-time guard and yields
depletion = now with willHitLimit true. -/
theorem predictWeeklyDepletion_guards (u rt now : Rat) :
    (u < 100 → now - (rt - 7 * 24 * 3600) < 24 * 3600 →
      (PredictWeeklyDepletion u (some rt) now).depletionTime = none ∧
        (PredictWeeklyDepletion u (some rt) now).willHitLimit = false) ∧
      (100 ≤ u →
        (PredictWeeklyDepletion u (some rt) now).depletionTime = some now ∧
          (PredictWeeklyDepletion u (some rt) now).willHitLimit = true) := by
  constructor
  · intro hu helapsed
    have hlt : (now - (rt - 7 * 24 * 3600)) / 3600 < 24 := by
      rw [div_lt_iff₀ (by norm_num : (0 : Rat) < 3600)]
      linarith
    show (predictWeeklyDepletionAt u rt now).depletionTime = none ∧
      (predictWeeklyDepletionAt u rt now).willHitLimit = false
    simp only [predictWeeklyDepletionAt]
    rw [if_neg (not_le.mpr hu)]
    rcases le_or_lt ((now - (rt - 7 * 24 * 3600)) / 3600) 0 with h0 | h0
    · rw [if_pos h0]
      exact ⟨rfl, rfl⟩
    · rw [if_neg (not_le.mpr h0), if_pos hlt]
      exact ⟨rfl, rfl⟩
  · intro hu
    show (predictWeeklyDepletionAt u rt now).depletionTime = some now ∧
      (predictWeeklyDepletionAt u rt now).willHitLimit = true
    simp only [predictWeeklyDepletionAt]
    rw [if_pos hu]
    exact ⟨rfl, rfl⟩

/-- Witness for C1's amended theorem: utilisation 50 with 10 hours
elapsed, and utilisation 100. -/
theorem predictWeeklyDepletion_guards_witness :
    ((PredictWeeklyDepletion 50 (some 604800) 36000).depletionTime = none ∧
      (PredictWeeklyDepletion 50 (some 604800) 36000).willHitLimit = false) ∧
      ((PredictWeeklyDepletion 100 (some 604800) 36000).depletionTime = some 36000 ∧
        (PredictWeeklyDepletion 100 (some 604800) 36000).willHitLimit = true) :=
  ⟨(predictWeeklyDepletion_guards 50 604800 36000).1 (by norm_num) (by norm_num),
    (predictWeeklyDepletion_guards 100 604800 36000).2 (by norm_num)⟩

/-- C6: with external utilisation present and its reset time at or before
`now`, the exposed session utilisation is clamped to 0 exactly when the
reported percentage exceeds `2 * max 1 ((elapsed / 5h) * 100)` and passed
through unchanged otherwise; 100% reported 30 minutes after rollover is
clamped to 0 while 5% is kept. -/
theorem clampStaleUtilisation_spec (pct rt now : Rat) (h : rt ≤ now) :
    (clampStaleUtilisation pct (some rt) now =
      if 2 * max 1 ((now - rt) / 18000 * 100) < pct then 0 else pct) ∧
      clampStaleUtilisation 100 (some rt) (rt + 1800) = 0 ∧
      clampStaleUtilisation 5 (some rt) (rt + 1800) = 5 := by
  have key : ∀ p n : Rat, rt ≤ n →
      clampStaleUtilisation p (some rt) n =
        if 2 * max 1 ((n - rt) / 18000 * 100) < p then 0 else p := by
    intro p n hn
    simp only [clampStaleUtilisation]
    rw [if_pos (not_lt.mpr hn)]
    have harith : (n - rt) / 3600 / 5 * 100 = (n - rt) / 18000 * 100 := by ring
    rw [harith]
    have hmax : (if (n - rt) / 18000 * 100 < 1 then (1 : Rat) else (n - rt) / 18000 * 100) =
        max 1 ((n - rt) / 18000 * 100) := by
      rcases le_or_lt 1 ((n - rt) / 18000 * 100) with h1 | h1
      · rw [if_neg (not_lt.mpr h1), max_eq_right h1]
      · rw [if_pos h1, max_eq_left h1.le]
    rw [hmax, mul_comm]
  have e1 : (rt + 1800 - rt : Rat) = 1800 := by ring
  refine ⟨key pct now h, ?_, ?_⟩
  · rw [key 100 (rt + 1800) (by linarith), e1]
    norm_num [max_def]
  · rw [key 5 (rt + 1800) (by linarith), e1]
    norm_num [max_def]

/-- Witness for C6 at reset time 0, now 1800 (30 minutes later). -/
theorem clampStaleUtilisation_spec_witness :
    (clampStaleUtilisation 100 (some 0) 1800 =
      if 2 * max 1 (((1800 : Rat) - 0) / 18000 * 100) < 100 then 0 else 100) ∧
      clampStaleUtilisation 100 (some 0) (0 + 1800) = 0 ∧
      clampStaleUtilisation 5 (some 0) (0 + 1800) = 5 :=
  clampStaleUtilisation_spec 100 0 1800 (by norm_num)

/-- C8 counterexample: the claim says a token ceiling of 0 is unbounded
and never exceeded, but the code compares `TotalTokens > TokenLimit`
directly. With one completed window of 1 total token on plan "pro"
(token ceiling 0), the code reports a switch while the claim's reading
does not. -/
theorem shouldSwitchToCustom_counterexample :
    ShouldSwitchToCustom [completedTestBlock 1] "pro" = true ∧
      shouldSwitchToCustomSpec [completedTestBlock 1] "pro" = false ∧
      (GetLimits "pro").tokenLimit = 0 := by
  refine ⟨?_, ?_, rfl⟩ <;>
    norm_num [ShouldSwitchToCustom, shouldSwitchToCustomSpec, completedTestBlock,
      GetLimits, PredefinedLimits, proLimits] <;> decide

/-- C8 (amended): `ShouldSwitchToCustom` returns true iff the current
plan is not "custom" and strictly more than 30% of the completed
(non-gap, non-active) windows have `totalTokens` strictly greater than
the plan's token ceiling, the ceiling being compared directly — a
ceiling of 0 is exceeded by any positive total. -/
theorem shouldSwitchToCustom_eq_amended (blocks : List SessionBlock) (plan : String) :
    ShouldSwitchToCustom blocks plan = shouldSwitchToCustomAmended blocks plan := by
  unfold ShouldSwitchToCustom shouldSwitchToCustomAmended
  by_cases hc : plan = "custom"
  · subst hc
    simp
  · rw [if_neg hc]
    simp [hc]

/-- C9: `UpdateSessionCosts` is **not** wall-clock independent — the Go
code computes `CostBurnRate` against an internally read `time.Now()`
(made explicit here as the second argument), so two runs over the same
block list at wall-clock readings 1800 and 3600 give different
`CostBurnRate` values (1/5 vs 1/10 USD/min) while `CostUSD` agrees. -/
theorem updateSessionCosts_reads_wall_clock :
    (UpdateSessionCosts [c9block] 1800).map SessionBlock.costBurnRate = [1 / 5] ∧
      (UpdateSessionCosts [c9block] 3600).map SessionBlock.costBurnRate = [1 / 10] ∧
      UpdateSessionCosts [c9block] 1800 ≠ UpdateSessionCosts [c9block] 3600 ∧
      (UpdateSessionCosts [c9block] 1800).map SessionBlock.costUSD =
        (UpdateSessionCosts [c9block] 3600).map SessionBlock.costUSD := by
  have h1 : (UpdateSessionCosts [c9block] 1800).map SessionBlock.costBurnRate = [1 / 5] := by
    norm_num [UpdateSessionCosts, CalculateCostBurnRate, CalculateSessionCost,
      SessionBlock.ElapsedDuration, SessionBlock.Duration, c9block, c9entry]
  have h2 : (UpdateSessionCosts [c9block] 3600).map SessionBlock.costBurnRate = [1 / 10] := by
    norm_num [UpdateSessionCosts, CalculateCostBurnRate, CalculateSessionCost,
      SessionBlock.ElapsedDuration, SessionBlock.Duration, c9block, c9entry]
  refine ⟨h1, h2, ?_, ?_⟩
  · intro heq
    have hcontr : ([1 / 5] : List Rat) = [1 / 10] := by
      rw [← h1, ← h2, heq]
    norm_num at hcontr
  · norm_num [UpdateSessionCosts, CalculateSessionCost, c9block, c9entry]

/-- C7 counterexample: the claim's fallback set is the totals of **all**
completed windows, but the code keeps only strictly positive totals.
With completed totals {0, 100}, no known ceiling hit, and a configured
minimum of 0, the code's nearest-rank P90 over [100] is 100 while the
claim's over [0, 100] (index floor(1*0.9) = 0) is 0. -/
theorem calculateP90Limit_counterexample :
    CalculateP90Limit [completedTestBlock 0, completedTestBlock 100]
        ⟨[1000], 95 / 100, 0⟩ = 100 ∧
      calculateP90LimitSpec [completedTestBlock 0, completedTestBlock 100]
        ⟨[1000], 95 / 100, 0⟩ = 0 := by
  constructor <;>
    norm_num [CalculateP90Limit, calculateP90LimitSpec, quantile, completedTestBlock,
      List.insertionSort, List.orderedInsert, List.getD] <;> decide

/-- Splitting a guarded `filterMap` into a `filter` followed by a `map`. -/
theorem filterMap_guard_eq {α β : Type} (l : List α) (c : α → Prop) [DecidablePred c]
    (g : α → β) (f : α → Option β) (hf : ∀ a, f a = if c a then some (g a) else none) :
    l.filterMap f = (l.filter fun a => decide (c a)).map g := by
  induction l with
  | nil => simp
  | cons a l ih =>
    by_cases h : c a <;>
      simp [List.filterMap_cons, List.filter_cons, hf, h, ih]

/-- C7 (amended): `CalculateP90Limit` takes the totals of completed
windows at or above `limitThreshold` of some known ceiling, falls back to
the totals of completed windows **with strictly positive totalTokens**,
and returns the nearest-rank 90th percentile floored at the configured
minimum. -/
theorem calculateP90Limit_characterisation (blocks : List SessionBlock) (config : P90Config) :
    CalculateP90Limit blocks config =
      (let hitSet := (blocks.filter fun b => decide (¬b.isGap ∧ ¬b.isActive ∧
          ∃ limit ∈ config.commonLimits,
            (limit : Rat) * config.limitThreshold ≤ (b.totalTokens : Rat))).map
          SessionBlock.totalTokens
       let base :=
         if hitSet = [] then
           (blocks.filter fun b => decide (¬b.isGap ∧ ¬b.isActive ∧ 0 < b.totalTokens)).map
             SessionBlock.totalTokens
         else hitSet
       if base = [] then config.defaultMinLimit
       else max config.defaultMinLimit (quantile base (9 / 10))) := by
  have h1 : (blocks.filterMap fun b =>
      if b.isGap ∨ b.isActive then none
      else if config.commonLimits.any fun limit =>
          (limit : Rat) * config.limitThreshold ≤ (b.totalTokens : Rat) then
        some b.totalTokens
      else none) =
      (blocks.filter fun b => decide (¬b.isGap ∧ ¬b.isActive ∧
        ∃ limit ∈ config.commonLimits,
          (limit : Rat) * config.limitThreshold ≤ (b.totalTokens : Rat))).map
        SessionBlock.totalTokens := by
    apply filterMap_guard_eq
    intro b
    by_cases hga : b.isGap ∨ b.isActive
    · rw [if_pos hga, if_neg]
      intro hc
      rcases hga with hg | ha
      · exact hc.1 hg
      · exact hc.2.1 ha
    · rw [if_neg hga]
      push_neg at hga
      by_cases hany : ∃ limit ∈ config.commonLimits,
          (limit : Rat) * config.limitThreshold ≤ (b.totalTokens : Rat)
      · rw [if_pos, if_pos ⟨hga.1, hga.2, hany⟩]
        simpa [List.any_eq_true] using hany
      · rw [if_neg, if_neg]
        · intro hc
          exact hany hc.2.2
        · simpa [List.any_eq_true] using hany
  have h2 : (blocks.filterMap fun b =>
      if ¬b.isGap ∧ ¬b.isActive ∧ 0 < b.totalTokens then some b.totalTokens else none) =
      (blocks.filter fun b => decide (¬b.isGap ∧ ¬b.isActive ∧ 0 < b.totalTokens)).map
        SessionBlock.totalTokens :=
    filterMap_guard_eq blocks _ SessionBlock.totalTokens _ fun a => rfl
  have hfloor : ∀ (L : List Int) (m : Int) (q : Rat),
      (if L = [] then m else if quantile L q < m then m else quantile L q) =
        (if L = [] then m else max m (quantile L q)) := by
    intro L m q
    split_ifs with h h2
    · rfl
    · exact (max_eq_left h2.le).symm
    · exact (max_eq_right (not_lt.mp h2)).symm
  simp only [CalculateP90Limit, h1, h2]
  exact hfloor _ _ _

/-- The trailing-hour proportional term over plain integers: the loop
body's clamp-and-skip chain agrees with the interval-overlap formula. -/
theorem hour_share_eq (E S tok now : Int) :
    (if E < now - 3600 then (0 : Rat)
     else if now < S then 0
     else
       if (if now < E then now else E) < (if S < now - 3600 then now - 3600 else S) then 0
       else if 0 < (((E - S : Int) : Rat) / 60) then
         (((((if now < E then now else E) - (if S < now - 3600 then now - 3600 else S) : Int) : Rat) / 60) /
             (((E - S : Int) : Rat) / 60)) * (tok : Rat)
       else 0) =
    (if E < now - 3600 ∨ now < S ∨ (((E - S : Int) : Rat) / 60) ≤ 0 then 0
     else ((((max 0 (min E now - max S (now - 3600)) : Int) : Rat) / 60) /
         (((E - S : Int) : Rat) / 60)) * (tok : Rat)) := by
  have hpos : (0 < (((E - S : Int) : Rat) / 60)) ↔ S < E := by
    rw [lt_div_iff₀ (by norm_num : (0 : Rat) < 60)]
    norm_num
  by_cases h1 : E < now - 3600
  · rw [if_pos h1, if_pos (Or.inl h1)]
  · rw [if_neg h1]
    by_cases h2 : now < S
    · rw [if_pos h2, if_pos (Or.inr (Or.inl h2))]
    · rw [if_neg h2]
      by_cases h4 : 0 < (((E - S : Int) : Rat) / 60)
      · have hSE : S < E := hpos.mp h4
        rw [if_neg (show ¬(E < now - 3600 ∨ now < S ∨ (((E - S : Int) : Rat) / 60) ≤ 0) from by
          push_neg
          exact ⟨not_lt.mp h1, not_lt.mp h2, h4⟩)]
        by_cases h3 : (if now < E then now else E) < (if S < now - 3600 then now - 3600 else S)
        · rw [if_pos h3]
          have hover : max 0 (min E now - max S (now - 3600)) = 0 := by
            split_ifs at h3 <;> omega
          rw [hover]
          norm_num
        · rw [if_neg h3, if_pos h4]
          have hover : max 0 (min E now - max S (now - 3600)) =
              (if now < E then now else E) - (if S < now - 3600 then now - 3600 else S) := by
            split_ifs at h3 ⊢ <;> omega
          rw [hover]
      · have hse : ¬ S < E := fun hc => h4 (hpos.mpr hc)
        rw [if_pos (Or.inr (Or.inr (not_lt.mp h4)))]
        by_cases h3 : (if now < E then now else E) < (if S < now - 3600 then now - 3600 else S)
        · rw [if_pos h3]
        · rw [if_neg h3, if_neg h4]

/-- The loop body of `CalculateBurnRate` agrees with the spec's
per-window reference term. -/
theorem burnRateContribution_eq_ref (b : SessionBlock) (now : Int) :
    burnRateContribution b now = burnRateRefContribution b now := by
  unfold burnRateContribution burnRateRefContribution
  by_cases hg : b.isGap
  · rw [if_pos hg, if_pos hg]
  · rw [if_neg hg, if_neg hg]
    have hend : (if ¬b.isActive ∧ b.actualEndTime ≠ none then b.actualEndTime.getD now
        else if ¬b.isActive then b.endTime else now) =
        (if ¬b.isActive ∧ b.actualEndTime ≠ none then b.actualEndTime.getD now
        else if b.isActive then now else b.endTime) := by
      by_cases hc : ¬b.isActive ∧ b.actualEndTime ≠ none
      · rw [if_pos hc, if_pos hc]
      · rw [if_neg hc, if_neg hc]
        by_cases ha : b.isActive
        · rw [if_neg (by simp [ha]), if_pos ha]
        · rw [if_pos (by simp [ha]), if_neg ha]
    rw [hend]
    exact hour_share_eq _ b.startTime b.displayTokens now

/-- C4: `CalculateBurnRate` equals the spec's reference definition on all
inputs, and a single window fully inside the last hour with 3000 display
tokens and 30 minutes elapsed yields a velocity within 1 of 50
tokens/min. -/
theorem calculateBurnRate_eq_ref :
    (∀ blocks now, CalculateBurnRate blocks now = burnRateRef blocks now) ∧
      |CalculateBurnRate [exampleBurnBlock] 36000 - 50| ≤ 1 := by
  constructor
  · intro blocks now
    simp only [CalculateBurnRate, burnRateRef, burnRateContribution_eq_ref]
  · norm_num [CalculateBurnRate, burnRateContribution, exampleBurnBlock]

theorem addEntry_isGap (c : SessionBlock) (e : UsageEntry) :
    (c.AddEntry e).isGap = c.isGap := rfl

theorem addEntry_endTime (c : SessionBlock) (e : UsageEntry) :
    (c.AddEntry e).endTime = c.endTime := rfl

theorem addEntry_entries (c : SessionBlock) (e : UsageEntry) :
    (c.AddEntry e).entries = c.entries ++ [e] := rfl

/-- The first emitted non-gap window of `createBlocksAux c es` descends
from `c`: it keeps `c`'s first entry and end time. -/
theorem sessionsOnly_createBlocksAux_head (es : List UsageEntry) (c : SessionBlock)
    (hg : c.isGap = false) (hne : c.entries ≠ []) :
    ∃ s S', sessionsOnly (createBlocksAux c es) = s :: S' ∧
      s.entries.head? = c.entries.head? ∧ s.endTime = c.endTime := by
  induction es generalizing c with
  | nil =>
    refine ⟨c, [], ?_, rfl, rfl⟩
    simp [sessionsOnly, createBlocksAux, List.filter, hg]
  | cons e rest ih =>
    by_cases hfit : e.timestamp < c.endTime
    · have hg' : (c.AddEntry e).isGap = false := by rw [addEntry_isGap, hg]
      have hne' : (c.AddEntry e).entries ≠ [] := by
        rw [addEntry_entries]
        simp
      obtain ⟨s, S', hS, hhead, hend⟩ := ih (c.AddEntry e) hg' hne'
      refine ⟨s, S', ?_, ?_, ?_⟩
      · rw [show createBlocksAux c (e :: rest) = createBlocksAux (c.AddEntry e) rest from by
          simp only [createBlocksAux, if_pos hfit]]
        exact hS
      · rw [hhead, addEntry_entries]
        cases hc : c.entries with
        | nil => exact absurd hc hne
        | cons a l => simp
      · rw [hend, addEntry_endTime]
    · refine ⟨c, sessionsOnly (createBlocksAux ((newSessionBlock e.timestamp).AddEntry e) rest),
        ?_, rfl, rfl⟩
      simp only [createBlocksAux, if_neg hfit]
      by_cases hgap : GapThreshold < e.timestamp - c.endTime
      · rw [if_pos hgap]
        simp [sessionsOnly, List.filter_append, List.filter, createGapBlock, hg]
      · rw [if_neg hgap]
        simp [sessionsOnly, List.filter, hg]

/-- The output of the Windower loop is its own non-gap windows with the
spec's gap markers interleaved. -/
theorem createBlocksAux_eq_interleave (es : List UsageEntry) (c : SessionBlock)
    (hg : c.isGap = false) (hne : c.entries ≠ []) :
    createBlocksAux c es = interleaveGaps (sessionsOnly (createBlocksAux c es)) := by
  induction es generalizing c with
  | nil =>
    simp [createBlocksAux, sessionsOnly, List.filter, hg, interleaveGaps]
  | cons e rest ih =>
    by_cases hfit : e.timestamp < c.endTime
    · simp only [createBlocksAux, if_pos hfit]
      exact ih (c.AddEntry e) (by rw [addEntry_isGap, hg]) (by rw [addEntry_entries]; simp)
    · have hgB : ((newSessionBlock e.timestamp).AddEntry e).isGap = false := rfl
      have hneB : ((newSessionBlock e.timestamp).AddEntry e).entries ≠ [] := by
        rw [addEntry_entries]
        simp
      obtain ⟨s, S', hS, hhead, hend⟩ :=
        sessionsOnly_createBlocksAux_head rest ((newSessionBlock e.timestamp).AddEntry e) hgB hneB
      have hheadB : ((newSessionBlock e.timestamp).AddEntry e).entries.head? = some e := by
        rw [addEntry_entries]
        simp [newSessionBlock]
      simp only [createBlocksAux, if_neg hfit]
      have hsR : sessionsOnly
          ((if GapThreshold < e.timestamp - c.endTime then
              [createGapBlock c.endTime e.timestamp]
            else []) ++
            c :: createBlocksAux ((newSessionBlock e.timestamp).AddEntry e) rest) =
          c :: s :: S' := by
        by_cases hgap : GapThreshold < e.timestamp - c.endTime
        · rw [if_pos hgap]
          rw [show sessionsOnly ([createGapBlock c.endTime e.timestamp] ++
              c :: createBlocksAux ((newSessionBlock e.timestamp).AddEntry e) rest) =
              sessionsOnly (c :: createBlocksAux ((newSessionBlock e.timestamp).AddEntry e) rest)
            from by simp [sessionsOnly, List.filter, createGapBlock]]
          rw [show sessionsOnly (c :: createBlocksAux ((newSessionBlock e.timestamp).AddEntry e) rest) =
              c :: sessionsOnly (createBlocksAux ((newSessionBlock e.timestamp).AddEntry e) rest)
            from by simp [sessionsOnly, List.filter, hg]]
          rw [hS]
        · rw [if_neg hgap]
          rw [show sessionsOnly ([] ++
              c :: createBlocksAux ((newSessionBlock e.timestamp).AddEntry e) rest) =
              c :: sessionsOnly (createBlocksAux ((newSessionBlock e.timestamp).AddEntry e) rest)
            from by simp [sessionsOnly, List.filter, hg]]
          rw [hS]
      rw [hsR]
      rw [show interleaveGaps (c :: s :: S') =
          (match s.entries.head? with
           | some e0 =>
             if GapThreshold < e0.timestamp - c.endTime then
               [createGapBlock c.endTime e0.timestamp]
             else []
           | none => []) ++ c :: interleaveGaps (s :: S') from rfl]
      rw [hhead, hheadB]
      rw [← hS, ← ih ((newSessionBlock e.timestamp).AddEntry e) hgB hneB]

/-- `nonGapEntries` distributes over list append. -/
theorem nonGapEntries_append (l1 l2 : List SessionBlock) :
    nonGapEntries (l1 ++ l2) = nonGapEntries l1 ++ nonGapEntries l2 := by
  simp [nonGapEntries, List.filter_append, List.map_append, List.join_append]

/-- The Windower loop appends every processed event to exactly one
non-gap window, preserving order. -/
theorem nonGapEntries_createBlocksAux (es : List UsageEntry) (c : SessionBlock)
    (hg : c.isGap = false) :
    nonGapEntries (createBlocksAux c es) = c.entries ++ es := by
  induction es generalizing c with
  | nil =>
    simp [nonGapEntries, createBlocksAux, List.filter, hg]
  | cons e rest ih =>
    by_cases hfit : e.timestamp < c.endTime
    · rw [show createBlocksAux c (e :: rest) = createBlocksAux (c.AddEntry e) rest from by
        simp only [createBlocksAux, if_pos hfit]]
      rw [ih (c.AddEntry e) (by rw [addEntry_isGap, hg]), addEntry_entries]
      simp
    · rw [show createBlocksAux c (e :: rest) =
        (if GapThreshold < e.timestamp - c.endTime then
          [createGapBlock c.endTime e.timestamp]
        else []) ++
        c :: createBlocksAux ((newSessionBlock e.timestamp).AddEntry e) rest from by
        simp only [createBlocksAux, if_neg hfit]]
      rw [nonGapEntries_append]
      have hgaps : nonGapEntries (if GapThreshold < e.timestamp - c.endTime then
          [createGapBlock c.endTime e.timestamp] else []) = [] := by
        split_ifs <;> simp [nonGapEntries, List.filter, createGapBlock]
      rw [hgaps]
      rw [show nonGapEntries (c :: createBlocksAux ((newSessionBlock e.timestamp).AddEntry e) rest) =
          c.entries ++ nonGapEntries (createBlocksAux ((newSessionBlock e.timestamp).AddEntry e) rest)
        from by simp [nonGapEntries, List.filter, hg]]
      rw [ih ((newSessionBlock e.timestamp).AddEntry e) rfl]
      rw [addEntry_entries]
      simp [newSessionBlock]

/-- Every gap window emitted by the Windower loop carries no events. -/
theorem gap_blocks_empty_createBlocksAux (es : List UsageEntry) (c : SessionBlock)
    (hg : c.isGap = false) :
    ∀ b ∈ createBlocksAux c es, b.isGap = true → b.entries = [] := by
  induction es generalizing c with
  | nil =>
    intro b hb hbg
    rw [createBlocksAux] at hb
    simp only [List.mem_singleton] at hb
    rw [hb] at hbg
    rw [hg] at hbg
    exact absurd hbg (by simp)
  | cons e rest ih =>
    intro b hb hbg
    by_cases hfit : e.timestamp < c.endTime
    · rw [show createBlocksAux c (e :: rest) = createBlocksAux (c.AddEntry e) rest from by
        simp only [createBlocksAux, if_pos hfit]] at hb
      exact ih (c.AddEntry e) (by rw [addEntry_isGap, hg]) b hb hbg
    · rw [show createBlocksAux c (e :: rest) =
        (if GapThreshold < e.timestamp - c.endTime then
          [createGapBlock c.endTime e.timestamp]
        else []) ++
        c :: createBlocksAux ((newSessionBlock e.timestamp).AddEntry e) rest from by
        simp only [createBlocksAux, if_neg hfit]] at hb
      rw [List.mem_append] at hb
      rcases hb with hb | hb
      · split_ifs at hb with hgap
        · simp only [List.mem_singleton] at hb
          rw [hb]
          rfl
        · exact absurd hb (by simp)
      · rw [List.mem_cons] at hb
        rcases hb with hb | hb
        · rw [hb] at hbg
          rw [hg] at hbg
          exact absurd hbg (by simp)
        · exact ih ((newSessionBlock e.timestamp).AddEntry e) rfl b hb hbg

/-- C2: for sorted input, the Windower's output is exactly its non-gap
windows with a gap window interleaved iff the next window's first event
exceeds the closing window's end by strictly more than D = 5h, the gap
spanning [window.end, nextEvent.timestamp); concretely, a second event
6h past the first window's end yields exactly the gap (18000, 39600), one
4h past yields none, and one exactly D = 5h past yields none. -/
theorem windower_gap_characterisation :
    (∀ entries : List UsageEntry,
      entries.Chain' (fun a b => a.timestamp ≤ b.timestamp) →
      CreateSessionBlocks entries = interleaveGaps (sessionsOnly (CreateSessionBlocks entries))) ∧
      ((CreateSessionBlocks [testEntry 0 1, testEntry 39600 1]).filter fun b => b.isGap).map
          (fun b => (b.startTime, b.endTime)) = [(18000, 39600)] ∧
      ((CreateSessionBlocks [testEntry 0 1, testEntry 32400 1]).filter fun b => b.isGap).length
          = 0 ∧
      ((CreateSessionBlocks [testEntry 0 1, testEntry 36000 1]).filter fun b => b.isGap).length
          = 0 := by
  refine ⟨?_, by decide, by decide, by decide⟩
  intro entries hsorted
  cases entries with
  | nil => rfl
  | cons e rest =>
    rw [show CreateSessionBlocks (e :: rest) =
        createBlocksAux ((newSessionBlock e.timestamp).AddEntry e) rest from rfl]
    exact createBlocksAux_eq_interleave rest ((newSessionBlock e.timestamp).AddEntry e) rfl
      (by rw [addEntry_entries]; simp)

/-- Witness for C2 at the sorted two-event list with a 6h silence past
the first window's end. -/
theorem windower_gap_characterisation_witness :
    CreateSessionBlocks [testEntry 0 1, testEntry 39600 1] =
      interleaveGaps (sessionsOnly (CreateSessionBlocks [testEntry 0 1, testEntry 39600 1])) :=
  windower_gap_characterisation.1 [testEntry 0 1, testEntry 39600 1]
    (by simp [List.chain'_cons, List.chain'_singleton, testEntry])

/-- C3: for sorted input the emitted windows partition the events — the
non-gap windows' entry lists concatenate back to the input in order (so
each event lies in exactly one non-gap window), gap windows carry no
events, and empty input yields an empty window list. -/
theorem windower_partitions (entries : List UsageEntry)
    (hsorted : entries.Chain' fun a b => a.timestamp ≤ b.timestamp) :
    nonGapEntries (CreateSessionBlocks entries) = entries ∧
      (∀ b ∈ CreateSessionBlocks entries, b.isGap = true → b.entries = []) ∧
      CreateSessionBlocks [] = [] := by
  refine ⟨?_, ?_, rfl⟩
  · cases entries with
    | nil => rfl
    | cons e rest =>
      rw [show CreateSessionBlocks (e :: rest) =
          createBlocksAux ((newSessionBlock e.timestamp).AddEntry e) rest from rfl]
      rw [nonGapEntries_createBlocksAux rest ((newSessionBlock e.timestamp).AddEntry e) rfl]
      rw [addEntry_entries]
      simp [newSessionBlock]
  · cases entries with
    | nil => intro b hb; exact absurd hb (by simp [CreateSessionBlocks])
    | cons e rest =>
      rw [show CreateSessionBlocks (e :: rest) =
          createBlocksAux ((newSessionBlock e.timestamp).AddEntry e) rest from rfl]
      exact gap_blocks_empty_createBlocksAux rest ((newSessionBlock e.timestamp).AddEntry e) rfl

/-- Witness for C3 at a sorted two-event list spanning two windows. -/
theorem windower_partitions_witness :
    nonGapEntries (CreateSessionBlocks [testEntry 0 1, testEntry 39600 1]) =
        [testEntry 0 1, testEntry 39600 1] ∧
      (∀ b ∈ CreateSessionBlocks [testEntry 0 1, testEntry 39600 1],
        b.isGap = true → b.entries = []) ∧
      CreateSessionBlocks [] = [] :=
  windower_partitions [testEntry 0 1, testEntry 39600 1]
    (by simp [List.chain'_cons, List.chain'_singleton, testEntry])
